import Mathlib

/-!
Verification of the schema-detection and aggregation pipeline of the
spreadsheet dashboard in src/app.py.

The embedding models a pandas dataframe as a `Table`: a row count together
with an ordered list of named columns, each column an ordered list of
loosely typed cells.  A cell is a rational number (pandas float64/int64
entries, idealized to exact rationals), a string (object dtype entries),
or null (NaN / missing).  A column has numeric dtype exactly when none of
its cells is a string: a column read from a spreadsheet gets float64 or
int64 dtype precisely when every entry is a number or missing, and object
dtype as soon as one entry is a string.  All reductions follow the pandas
skipna semantics: nulls are skipped by sums, means and counts.
-/

attribute [local semireducible] Rat.add Rat.mul Rat.inv Rat.sub

inductive Cell where
  | num (q : ℚ)
  | str (s : String)
  | null
deriving DecidableEq, Repr

structure Column where
  name : String
  cells : List Cell
deriving DecidableEq, Repr

structure Table where
  nrows : ℕ
  cols : List Column
deriving DecidableEq, Repr

/-- The column labels of the table, in order (`df.columns`). -/
def Table.colNames (t : Table) : List String := t.cols.map Column.name

/-- Column lookup by label (`df[name]` on the read side): the first column
carrying the label. -/
def Table.getCol (t : Table) (n : String) : Option Column :=
  t.cols.find? (fun c => c.name == n)

/-- The cell of column `n` at row `i`; null when the column or row is absent. -/
def Table.cell (t : Table) (n : String) (i : ℕ) : Cell :=
  ((t.getCol n).map (fun c => c.cells.getD i Cell.null)).getD Cell.null

/-- True of every cell a numeric-dtype column can hold (number or NaN). -/
def isNumericCell : Cell → Bool
  | Cell.str _ => false
  | _ => true

/-- Numeric dtype test for a column: `select_dtypes(include=['float64','int64'])`
keeps a column exactly when no entry is a string. -/
def Column.isNumeric (c : Column) : Bool := c.cells.all isNumericCell

/-- `df.select_dtypes(include=['float64','int64'])`: the numeric-dtype columns,
in original order. -/
def Table.numericCols (t : Table) : List Column := t.cols.filter Column.isNumeric

/-- Column assignment `df[name] = vals`: pandas overwrites the column in place
when the label exists (keeping its position) and appends a new column at the
end otherwise.  The assignment mutates the dataframe object itself. -/
def Table.setCol (t : Table) (n : String) (vals : List Cell) : Table :=
  if n ∈ t.colNames then
    { t with cols := t.cols.map (fun c => if c.name == n then ⟨n, vals⟩ else c) }
  else
    { t with cols := t.cols ++ [⟨n, vals⟩] }

/-- Label-based selection `df[names]`: the columns of `t` under each label of
`names`, in that order. -/
def Table.selectCols (t : Table) (names : List String) : List Column :=
  names.filterMap t.getCol

/-- The cells of row `i` across the given columns. -/
def rowCells (cs : List Column) (i : ℕ) : List Cell :=
  cs.map (fun c => c.cells.getD i Cell.null)

/-- The numeric value of a cell, none for strings and nulls. -/
def cellNum : Cell → Option ℚ
  | Cell.num q => some q
  | _ => none

/-- `sum` with pandas skipna semantics: nulls contribute nothing. -/
def skipnaSum : List Cell → ℚ
  | [] => 0
  | Cell.num q :: rest => q + skipnaSum rest
  | _ :: rest => skipnaSum rest

/-- `notna().sum()` / the denominator of a skipna mean: the number of
non-null numeric entries. -/
def skipnaCount : List Cell → ℕ
  | [] => 0
  | Cell.num _ :: rest => 1 + skipnaCount rest
  | _ :: rest => skipnaCount rest

/-- `mean` with pandas skipna semantics: the sum of the non-null entries over
their count, NaN (null) when every entry is null. -/
def skipnaMeanCell (cells : List Cell) : Cell :=
  if skipnaCount cells = 0 then Cell.null
  else Cell.num (skipnaSum cells / (skipnaCount cells : ℚ))

/-- src/app.py line 32: the columns required of invoice data. -/
def invoice_columns : List String :=
  ["Sr No", "Invoice No", "Account Holder Name", "Customer Name", "Amount"]

/-- src/app.py line 33: the columns required of packet data. -/
def packet_columns : List String :=
  ["Account", "A/C Holder Name", "State"]

/-- src/app.py lines 30-40, `detect_file_type`: invoice is tested first,
then packet, and `None` otherwise. -/
def detect_file_type (df : Table) : Option String :=
  if ∀ c ∈ invoice_columns, c ∈ df.colNames then some ("invoice")
  else if ∀ c ∈ packet_columns, c ∈ df.colNames then some ("packet")
  else none

/-- A table whose column set is a superset of both required sets at once. -/
def exBoth : Table :=
  ⟨0, [⟨"Sr No", []⟩, ⟨"Invoice No", []⟩, ⟨"Account Holder Name", []⟩,
       ⟨"Customer Name", []⟩, ⟨"Amount", []⟩, ⟨"Account", []⟩,
       ⟨"A/C Holder Name", []⟩, ⟨"State", []⟩]⟩

/-- C3, counterexample: a table matching both schemas is classified as
invoice, not packet, because `detect_file_type` tests the invoice columns
first. -/
theorem detect_tie_counterexample :
    (∀ c ∈ packet_columns, c ∈ exBoth.colNames) ∧
    (∀ c ∈ invoice_columns, c ∈ exBoth.colNames) ∧
    detect_file_type exBoth ≠ some ("packet") := by decide

/-- C3, amended: every table whose column set is a superset of the invoice
required columns is classified as invoice — invoice is the first-checked
branch, so it also wins whenever the packet columns are present as well. -/
theorem detect_invoice_superset (df : Table)
    (hinv : ∀ c ∈ invoice_columns, c ∈ df.colNames) :
    detect_file_type df = some ("invoice") := by
  unfold detect_file_type
  exact if_pos hinv

/-- C3, witness: the amended tie-break theorem at the two-schema table. -/
theorem detect_invoice_superset_witness :
    detect_file_type exBoth = some ("invoice") :=
  detect_invoice_superset exBoth (by decide)

/-!
Minority bucketing: src/app.py lines 196-216, inside
`create_packet_visualizations`.  The step is abstracted over `account_data`,
the grouped per-account totals produced by
`df.groupby('Account')['Total'].sum()` — a list of (account, total) pairs.
`total_pieces = df['Total'].sum()` is the sum over rows of the Total column,
which equals the sum of the grouped totals, so it is computed here from the
pairs directly.
-/

/-- The grand total `total_pieces` of the grouped account totals. -/
def total_pieces (account_data : List (String × ℚ)) : ℚ :=
  (account_data.map Prod.snd).sum

/-- The mask `account_data['Percentage'] < 2` for one group, where
Percentage is `total / total_pieces * 100`.  Division is exact rational
division; when the grand total is zero, float64 division yields NaN for a
zero numerator (the comparison with 2 is false) and a signed infinity
otherwise (the comparison is true exactly for a negative numerator), which
the zero-total branch reproduces. -/
def pct_lt_2 (v g : ℚ) : Bool :=
  if g = 0 then decide (v < 0) else decide (v / g * 100 < 2)

/-- `others_sum`: the summed totals of the below-2% groups. -/
def others_sum (account_data : List (String × ℚ)) : ℚ :=
  ((account_data.filter
      (fun p => pct_lt_2 p.2 (total_pieces account_data))).map Prod.snd).sum

/-- `pie_data`: the groups at or above the 2% share, with one synthetic
Others row appended exactly when `others_sum > 0` (src/app.py lines 206-213). -/
def pie_data (account_data : List (String × ℚ)) : List (String × ℚ) :=
  if 0 < others_sum account_data then
    (account_data.filter
        (fun p => ! pct_lt_2 p.2 (total_pieces account_data)))
      ++ [(("Others"), others_sum account_data)]
  else
    account_data.filter (fun p => ! pct_lt_2 p.2 (total_pieces account_data))

theorem sum_filter_split (l : List (String × ℚ)) (p : String × ℚ → Bool) :
    ((l.filter p).map Prod.snd).sum
      + ((l.filter (fun x => ! p x)).map Prod.snd).sum
      = (l.map Prod.snd).sum := by
  induction l with
  | nil => simp
  | cons a t ih =>
    by_cases h : p a = true
    · simp [List.filter_cons, h, ih.symm]
      ring
    · have h2 : p a = false := by
        cases hpa : p a
        · rfl
        · exact absurd hpa h
      simp [List.filter_cons, h2, ih.symm]
      ring

/-- C8, counterexample: with grouped totals A = 100 and B = -1 the grand
total is 99, B falls below the 2% share and `others_sum = -1` is not
positive, so B is dropped without an Others row and the returned totals sum
to 100, not 99. -/
theorem pie_sum_counterexample :
    ((pie_data [(("A"), 100), (("B"), -1)]).map Prod.snd).sum
      ≠ (([(("A"), (100 : ℚ)), (("B"), -1)]).map Prod.snd).sum := by decide

/-- C8, amended: when every grouped total is non-negative, the returned
group totals (with Others when present) sum exactly to the grand total;
and when every group is at or above the 2% share, no Others row is
produced and the returned list is exactly the input.  (For inputs with a
negative below-2% total whose minority sum is not positive, the dropped
groups break exact preservation, as the counterexample shows.) -/
theorem pie_data_conservation (account_data : List (String × ℚ)) :
    ((∀ p ∈ account_data, 0 ≤ p.2) →
      ((pie_data account_data).map Prod.snd).sum
        = (account_data.map Prod.snd).sum) ∧
    ((∀ p ∈ account_data, pct_lt_2 p.2 (total_pieces account_data) = false) →
      pie_data account_data = account_data) := by
  constructor
  · intro hpos
    by_cases hos : 0 < others_sum account_data
    · rw [pie_data, if_pos hos]
      rw [List.map_append, List.sum_append]
      show ((account_data.filter _).map Prod.snd).sum
          + ([(("Others"), others_sum account_data)].map Prod.snd).sum = _
      have hsplit := sum_filter_split account_data
        (fun p => pct_lt_2 p.2 (total_pieces account_data))
      simp only [List.map_cons, List.map_nil, List.sum_cons, List.sum_nil,
        add_zero]
      rw [others_sum] at *
      linarith [hsplit]
    · have hle : others_sum account_data ≤ 0 := le_of_not_lt hos
      have hge : 0 ≤ others_sum account_data := by
        apply List.sum_nonneg
        intro x hx
        obtain ⟨p, hp, rfl⟩ := List.mem_map.mp hx
        exact hpos p (List.mem_of_mem_filter hp)
      have hzero : others_sum account_data = 0 := le_antisymm hle hge
      rw [pie_data, if_neg hos]
      have hsplit := sum_filter_split account_data
        (fun p => pct_lt_2 p.2 (total_pieces account_data))
      rw [others_sum] at hzero
      linarith [hsplit]
  · intro hall
    have hnil : account_data.filter
        (fun p => pct_lt_2 p.2 (total_pieces account_data)) = [] := by
      apply List.filter_eq_nil_iff.mpr
      intro p hp
      simp [hall p hp]
    have hos : ¬ 0 < others_sum account_data := by
      rw [others_sum, hnil]
      simp
    rw [pie_data, if_neg hos]
    apply List.filter_eq_self.mpr
    intro p hp
    simp [hall p hp]

/-- C8, witness: exact preservation on the non-negative Scenario D totals
(A = 50, B = 49, C = 1), and identity on two majority-only groups. -/
theorem pie_data_conservation_witness :
    ((pie_data [(("A"), 50), (("B"), 49), (("C"), 1)]).map Prod.snd).sum
      = (([(("A"), (50 : ℚ)), (("B"), 49), (("C"), 1)]).map Prod.snd).sum ∧
    pie_data [(("A"), 50), (("B"), 50)] = [(("A"), 50), (("B"), 50)] :=
  ⟨(pie_data_conservation [(("A"), 50), (("B"), 49), (("C"), 1)]).1 (by decide),
   (pie_data_conservation [(("A"), 50), (("B"), 50)]).2 (by decide)⟩

/-- C10: when the minority sum is not positive, the below-2% groups are
removed outright — the output is exactly the kept majority groups, no
Others row is appended, and any minority group present in the input is
absent from the output. -/
theorem pie_data_drops_nonpositive_minorities
    (account_data : List (String × ℚ)) (p : String × ℚ)
    (_hp : p ∈ account_data)
    (hmask : pct_lt_2 p.2 (total_pieces account_data) = true)
    (hos : others_sum account_data ≤ 0) :
    pie_data account_data
        = account_data.filter
            (fun q => ! pct_lt_2 q.2 (total_pieces account_data)) ∧
    p ∉ pie_data account_data := by
  have hlt : ¬ 0 < others_sum account_data := not_lt.mpr hos
  have heq : pie_data account_data
      = account_data.filter
          (fun q => ! pct_lt_2 q.2 (total_pieces account_data)) := by
    rw [pie_data, if_neg hlt]
  refine ⟨heq, ?_⟩
  rw [heq]
  intro hmem
  have := (List.mem_filter.mp hmem).2
  rw [hmask] at this
  exact absurd this (by decide)

/-- C10, witness: with totals A = 100 and B = -1, the minority sum is -1,
so B is removed and the output is the single kept group A. -/
theorem pie_data_drops_nonpositive_minorities_witness :
    pie_data [(("A"), 100), (("B"), -1)]
        = ([(("A"), 100), (("B"), -1)] : List (String × ℚ)).filter
            (fun q => ! pct_lt_2 q.2
              (total_pieces [(("A"), 100), (("B"), -1)])) ∧
    (("B"), (-1 : ℚ)) ∉ pie_data [(("A"), 100), (("B"), -1)] :=
  pie_data_drops_nonpositive_minorities
    [(("A"), 100), (("B"), -1)] (("B"), -1)
    (by decide) (by decide) (by decide)

/-!
Invoice normalization: src/app.py lines 80-89, `process_invoice_dataframe`.
Line 88 converts the Amount column with
`pd.to_numeric(df['Amount'].astype(str).str.replace(r'[^\d.-]', '', regex=True), errors='coerce')`:
every character that is not a digit, a dot or a hyphen is removed, the
remainder is parsed as a decimal number, and a failed parse coerces to NaN
instead of raising.
-/

/-- Splits a character list at every dot, the helper for decimal parsing. -/
def splitDotAux : List Char → List Char → List (List Char)
  | [], acc => [acc.reverse]
  | c :: rest, acc =>
    if c = ('.') then acc.reverse :: splitDotAux rest []
    else splitDotAux rest (c :: acc)

/-- The natural number denoted by a list of decimal digits. -/
def digitsToNat (l : List Char) : ℕ :=
  l.foldl (fun n c => 10 * n + (c.toNat - 48)) 0

/-- Parses an unsigned decimal numeral: digits with at most one dot and at
least one digit overall.  This is the shape `pd.to_numeric` accepts among
strings built only from digits, dots and hyphens. -/
def parseUnsignedDec (cs : List Char) : Option ℚ :=
  match splitDotAux cs [] with
  | [ip] =>
    if ip ≠ [] ∧ ip.all Char.isDigit then some ((digitsToNat ip : ℚ))
    else none
  | [ip, fp] =>
    if (ip ++ fp) ≠ [] ∧ ip.all Char.isDigit ∧ fp.all Char.isDigit then
      some ((digitsToNat ip : ℚ) + (digitsToNat fp : ℚ) / (10 : ℚ) ^ fp.length)
    else none
  | _ => none

/-- `pd.to_numeric(s, errors='coerce')` on a string of digits, dots and
hyphens: an optional leading minus sign, then an unsigned decimal; anything
else fails (none, i.e. NaN). -/
def to_numeric_coerce (s : String) : Option ℚ :=
  match s.data with
  | ('-') :: rest => (parseUnsignedDec rest).map Neg.neg
  | cs => parseUnsignedDec cs

/-- `.str.replace(r'[^\d.-]', '', regex=True)`: drops every character that
is not a decimal digit, a dot or a hyphen. -/
def stripNonNumeric (s : String) : String :=
  String.mk (s.data.filter (fun c => c.isDigit || c == ('.') || c == ('-')))

/-- One Amount cell under line 88.  A string cell is stripped and re-parsed;
a null cell stringifies under `astype(str)` to the text nan, which strips to
the empty string and coerces back to null; a numeric cell stringifies to its
decimal numeral, which strips to itself and re-parses to the same value
(floats large enough to print in exponent notation are not modelled). -/
def parseAmount : Cell → Cell
  | Cell.num q => Cell.num q
  | Cell.null => Cell.null
  | Cell.str s =>
    match to_numeric_coerce (stripNonNumeric s) with
    | some q => Cell.num q
    | none => Cell.null

/-- src/app.py lines 80-89, `process_invoice_dataframe`: `None` when a
required column is missing (lines 82-85), otherwise the Amount column is
overwritten with its parsed values (line 88) and the table returned. -/
def process_invoice_dataframe (df : Table) : Option Table :=
  if ∀ c ∈ invoice_columns, c ∈ df.colNames then
    match df.getCol ("Amount") with
    | some col => some (df.setCol ("Amount") (col.cells.map parseAmount))
    | none => none
  else none

/-- The cells of the Amount column. -/
def amountCells (df : Table) : List Cell :=
  ((df.getCol ("Amount")).map Column.cells).getD []

theorem find?_map_set (cols : List Column) (n : String) (vals : List Cell)
    (h : n ∈ cols.map Column.name) :
    (cols.map (fun c => if c.name == n then ⟨n, vals⟩ else c)).find?
        (fun c => c.name == n) = some ⟨n, vals⟩ := by
  induction cols with
  | nil => simp at h
  | cons c cs ih =>
    simp only [List.map_cons]
    by_cases hc : c.name = n
    · have hf : ((if (c.name == n) = true then (⟨n, vals⟩ : Column) else c)
          = ⟨n, vals⟩) := by simp [hc]
      rw [hf]
      apply List.find?_cons_of_pos
      simp
    · have hbeq : (c.name == n) = false := by simp [hc]
      have hf : ((if (c.name == n) = true then (⟨n, vals⟩ : Column) else c)
          = c) := by simp [hbeq]
      rw [hf, List.find?_cons_of_neg]
      · apply ih
        rcases List.mem_map.mp h with ⟨d, hd, hdn⟩
        cases hd with
        | head => exact absurd hdn hc
        | tail _ hmem => exact List.mem_map.mpr ⟨d, hmem, hdn⟩
      · simp [hbeq]

/-- Writing a column under an existing label leaves it readable under that
label with exactly the written cells. -/
theorem getCol_setCol_self (t : Table) (n : String) (vals : List Cell)
    (h : n ∈ t.colNames) :
    (t.setCol n vals).getCol n = some ⟨n, vals⟩ := by
  rw [Table.setCol, if_pos h]
  exact find?_map_set t.cols n vals h

/-- C6: for every table with the invoice required columns, normalization
succeeds (no error, no abort) and replaces the Amount column cell-by-cell
with strip-then-parse results; in particular the string 1,200.50 with a
currency sign parses to 1200.50 and the string N/A parses to null. -/
theorem invoice_amount_parsing (df : Table)
    (hreq : ∀ c ∈ invoice_columns, c ∈ df.colNames) :
    (∃ df2, process_invoice_dataframe df = some df2 ∧
      amountCells df2 = (amountCells df).map parseAmount) ∧
    parseAmount (Cell.str ("₹1,200.50")) = Cell.num (2401 / 2) ∧
    parseAmount (Cell.str ("N/A")) = Cell.null := by
  refine ⟨?_, by decide, by decide⟩
  have hAmt : ("Amount") ∈ df.colNames := hreq ("Amount") (by decide)
  have hsome : ∃ col, df.getCol ("Amount") = some col := by
    rcases List.mem_map.mp hAmt with ⟨c, hc, hcn⟩
    have : (df.cols.find? (fun c => c.name == ("Amount"))).isSome := by
      apply List.find?_isSome.mpr
      exact ⟨c, hc, by simp [hcn]⟩
    rcases Option.isSome_iff_exists.mp this with ⟨col, hcol⟩
    exact ⟨col, hcol⟩
  rcases hsome with ⟨col, hcol⟩
  refine ⟨df.setCol ("Amount") (col.cells.map parseAmount), ?_, ?_⟩
  · unfold process_invoice_dataframe
    rw [if_pos hreq, hcol]
  · rw [amountCells, amountCells, hcol,
      getCol_setCol_self df ("Amount") (col.cells.map parseAmount) hAmt]
    simp

/-- A two-row invoice table whose Amount entries are the two spec scenarios. -/
def exC6 : Table :=
  ⟨2, [⟨"Sr No", [Cell.num 1, Cell.num 2]⟩,
       ⟨"Invoice No", [Cell.str ("240101001"), Cell.str ("240102002")]⟩,
       ⟨"Account Holder Name", [Cell.str ("H1"), Cell.str ("H2")]⟩,
       ⟨"Customer Name", [Cell.str ("C1"), Cell.str ("C2")]⟩,
       ⟨"Amount", [Cell.str ("₹1,200.50"), Cell.str ("N/A")]⟩]⟩

/-- C6, witness: the parsing theorem at a concrete two-row invoice table. -/
theorem invoice_amount_parsing_witness :
    (∃ df2, process_invoice_dataframe exC6 = some df2 ∧
      amountCells df2 = (amountCells exC6).map parseAmount) ∧
    parseAmount (Cell.str ("₹1,200.50")) = Cell.num (2401 / 2) ∧
    parseAmount (Cell.str ("N/A")) = Cell.null :=
  invoice_amount_parsing exC6 (by decide)

/-!
Invoice statistics: src/app.py lines 248-256, `calculate_invoice_statistics`.
-/

/-- `nunique()`: the number of distinct non-null values of a column (pandas
drops NaN before counting distinct values). -/
def nunique (cells : List Cell) : ℕ :=
  ((cells.filter (fun c => ! (c == Cell.null))).dedup).length

structure InvoiceStats where
  total_amount : ℚ
  average_invoice : Cell
  total_invoices : ℕ
  unique_customers : ℕ
  unique_account_holders : ℕ
deriving DecidableEq, Repr

/-- src/app.py lines 248-256: `df['Amount'].sum()`, `df['Amount'].mean()`,
`len(df)` and the two `nunique()` counts. -/
def calculate_invoice_statistics (df : Table) : InvoiceStats :=
  { total_amount := skipnaSum (amountCells df)
    average_invoice := skipnaMeanCell (amountCells df)
    total_invoices := df.nrows
    unique_customers :=
      nunique (((df.getCol ("Customer Name")).map Column.cells).getD [])
    unique_account_holders :=
      nunique (((df.getCol ("Account Holder Name")).map Column.cells).getD []) }

theorem skipnaSum_eq_filterMap (cells : List Cell) :
    skipnaSum cells = ((cells.filterMap cellNum)).sum := by
  induction cells with
  | nil => rfl
  | cons c rest ih =>
    cases c <;> simp [skipnaSum, cellNum, List.filterMap_cons, ih]

theorem skipnaCount_eq_filterMap (cells : List Cell) :
    skipnaCount cells = ((cells.filterMap cellNum)).length := by
  induction cells with
  | nil => rfl
  | cons c rest ih =>
    cases c <;> simp [skipnaCount, cellNum, List.filterMap_cons, ih,
      Nat.add_comm]

/-- C7: for every invoice table, null amounts are excluded from the total
amount and from both the numerator and the denominator of the average,
while the invoice count is the full row count, null-amount rows included. -/
theorem invoice_stats_null_semantics (df : Table) :
    (calculate_invoice_statistics df).total_invoices = df.nrows ∧
    (calculate_invoice_statistics df).total_amount
      = (((amountCells df).filterMap cellNum)).sum ∧
    ((amountCells df).filterMap cellNum ≠ [] →
      (calculate_invoice_statistics df).average_invoice
        = Cell.num ((((amountCells df).filterMap cellNum)).sum
            / ((((amountCells df).filterMap cellNum)).length : ℚ))) ∧
    ((amountCells df).filterMap cellNum = [] →
      (calculate_invoice_statistics df).average_invoice = Cell.null) := by
  refine ⟨rfl, skipnaSum_eq_filterMap (amountCells df), ?_, ?_⟩
  · intro hne
    show skipnaMeanCell (amountCells df) = _
    rw [skipnaMeanCell, skipnaSum_eq_filterMap, skipnaCount_eq_filterMap]
    have hlen : ((amountCells df).filterMap cellNum).length ≠ 0 :=
      fun h => hne (List.length_eq_zero.mp h)
    rw [if_neg hlen]
  · intro hnil
    show skipnaMeanCell (amountCells df) = _
    rw [skipnaMeanCell, if_pos (by rw [skipnaCount_eq_filterMap, hnil]; rfl)]

/-- A two-row invoice table with one parsable and one null amount. -/
def exC7 : Table :=
  ⟨2, [⟨"Sr No", [Cell.num 1, Cell.num 2]⟩,
       ⟨"Invoice No", [Cell.str ("240105003"), Cell.str ("240106004")]⟩,
       ⟨"Account Holder Name", [Cell.str ("H1"), Cell.str ("H1")]⟩,
       ⟨"Customer Name", [Cell.str ("C1"), Cell.str ("C2")]⟩,
       ⟨"Amount", [Cell.num 10, Cell.null]⟩]⟩

/-- C7, witness: on a table with amounts 10 and null, the total counts two
invoices, the total amount is 10 and the average divides by one, not two. -/
theorem invoice_stats_null_semantics_witness :
    (amountCells exC7).filterMap cellNum ≠ [] ∧
    (calculate_invoice_statistics exC7).total_invoices = 2 ∧
    (calculate_invoice_statistics exC7).average_invoice
      = Cell.num ((((amountCells exC7).filterMap cellNum)).sum
          / ((((amountCells exC7).filterMap cellNum)).length : ℚ)) :=
  ⟨by decide, (invoice_stats_null_semantics exC7).1,
   (invoice_stats_null_semantics exC7).2.2.1 (by decide)⟩

/-!
Combined invoice dashboard: src/app.py lines 539-545,
`create_combined_invoice_dashboard`.  The combined statistics are
`total_amount = sum(df['Amount'].sum() for df in ...)`,
`total_invoices = sum(len(df) for df in ...)` and
`avg_amount = total_amount / total_invoices`.
-/

/-- `sum(df['Amount'].sum() for df in invoice_dataframes.values())`. -/
def combined_total_amount (dfs : List Table) : ℚ :=
  (dfs.map (fun df => skipnaSum (amountCells df))).sum

/-- `sum(len(df) for df in invoice_dataframes.values())`. -/
def combined_total_invoices (dfs : List Table) : ℕ :=
  (dfs.map Table.nrows).sum

/-- `avg_amount = total_amount / total_invoices` (src/app.py line 545). -/
def combined_avg_amount (dfs : List Table) : ℚ :=
  combined_total_amount dfs / (combined_total_invoices dfs : ℚ)

/-- A one-row invoice table with mean amount 10. -/
def exInv1 : Table :=
  ⟨1, [⟨"Sr No", [Cell.num 1]⟩,
       ⟨"Invoice No", [Cell.str ("240101001")]⟩,
       ⟨"Account Holder Name", [Cell.str ("H1")]⟩,
       ⟨"Customer Name", [Cell.str ("C1")]⟩,
       ⟨"Amount", [Cell.num 10]⟩]⟩

/-- A three-row invoice table with mean amount 20. -/
def exInv2 : Table :=
  ⟨3, [⟨"Sr No", [Cell.num 1, Cell.num 2, Cell.num 3]⟩,
       ⟨"Invoice No", [Cell.str ("240101005"), Cell.str ("240101006"),
          Cell.str ("240101007")]⟩,
       ⟨"Account Holder Name", [Cell.str ("H2"), Cell.str ("H2"),
          Cell.str ("H2")]⟩,
       ⟨"Customer Name", [Cell.str ("C2"), Cell.str ("C2"),
          Cell.str ("C2")]⟩,
       ⟨"Amount", [Cell.num 20, Cell.num 20, Cell.num 20]⟩]⟩

/-- C4, counterexample: combining invoice tables with per-table means 10
(one row) and 20 (three rows) yields 70/4 = 17.5, not the mean of means 15
— row counts do matter. -/
theorem combined_avg_counterexample :
    (calculate_invoice_statistics exInv1).average_invoice = Cell.num 10 ∧
    (calculate_invoice_statistics exInv2).average_invoice = Cell.num 20 ∧
    combined_avg_amount [exInv1, exInv2] ≠ (10 + 20) / 2 := by decide

/-- C4, amended: the combined invoice average is the row-weighted pooled
mean — for two tables whose amounts are all non-null, with per-table means
m1 and m2, the combined average weights each mean by its row count. -/
theorem combined_invoice_avg_weighted (t1 t2 : Table) (m1 m2 : ℚ)
    (hc1 : skipnaCount (amountCells t1) = t1.nrows)
    (hc2 : skipnaCount (amountCells t2) = t2.nrows)
    (hn1 : 0 < t1.nrows) (hn2 : 0 < t2.nrows)
    (hm1 : (calculate_invoice_statistics t1).average_invoice = Cell.num m1)
    (hm2 : (calculate_invoice_statistics t2).average_invoice = Cell.num m2) :
    combined_avg_amount [t1, t2]
      = ((t1.nrows : ℚ) * m1 + (t2.nrows : ℚ) * m2)
        / ((t1.nrows : ℚ) + (t2.nrows : ℚ)) := by
  have hq1 : ((t1.nrows : ℚ)) ≠ 0 := by positivity
  have hq2 : ((t2.nrows : ℚ)) ≠ 0 := by positivity
  have hs1 : skipnaSum (amountCells t1) = (t1.nrows : ℚ) * m1 := by
    have := hm1
    rw [show (calculate_invoice_statistics t1).average_invoice
        = skipnaMeanCell (amountCells t1) from rfl] at this
    rw [skipnaMeanCell, hc1, if_neg (by omega)] at this
    have hval : skipnaSum (amountCells t1) / (t1.nrows : ℚ) = m1 :=
      Cell.num.inj this
    field_simp at hval
    linarith [hval]
  have hs2 : skipnaSum (amountCells t2) = (t2.nrows : ℚ) * m2 := by
    have := hm2
    rw [show (calculate_invoice_statistics t2).average_invoice
        = skipnaMeanCell (amountCells t2) from rfl] at this
    rw [skipnaMeanCell, hc2, if_neg (by omega)] at this
    have hval : skipnaSum (amountCells t2) / (t2.nrows : ℚ) = m2 :=
      Cell.num.inj this
    field_simp at hval
    linarith [hval]
  rw [combined_avg_amount, combined_total_amount, combined_total_invoices]
  simp only [List.map_cons, List.map_nil, List.sum_cons, List.sum_nil,
    add_zero, hs1, hs2]
  push_cast
  ring_nf

/-- C4, witness: the weighted-mean theorem at the concrete pair of tables
with means 10 and 20 and row counts 1 and 3. -/
theorem combined_invoice_avg_weighted_witness :
    combined_avg_amount [exInv1, exInv2]
      = ((exInv1.nrows : ℚ) * 10 + (exInv2.nrows : ℚ) * 20)
        / ((exInv1.nrows : ℚ) + (exInv2.nrows : ℚ)) :=
  combined_invoice_avg_weighted exInv1 exInv2 10 20
    (by decide) (by decide) (by decide) (by decide) (by decide) (by decide)

/-!
Packet normalization: src/app.py lines 63-78, `process_packet_dataframe`.
Line 70 selects the numeric-dtype columns; line 72 assigns
`df['Total'] = df[numeric_cols].sum(axis=1)` and line 73 assigns
`df['Average'] = df[numeric_cols].mean(axis=1)`.  The two assignments
mutate `df` in sequence, and `numeric_cols` is a list of column labels
captured before the first assignment: the Total assignment can therefore
change what `df[numeric_cols]` selects for the Average assignment when a
column named Total already existed (it is overwritten in place and then
re-read).  The embedding reproduces this by evaluating the Average row
means on the table that already carries the new Total column.
-/

/-- Line 70: the labels of the numeric-dtype columns, captured once. -/
def packet_numeric_names (df : Table) : List String :=
  (df.numericCols).map Column.name

/-- Line 72: `df[numeric_cols].sum(axis=1)`, the row-wise skipna sums over
the selected labels, evaluated on the incoming table. -/
def packet_totals (df : Table) : List Cell :=
  (List.range df.nrows).map
    (fun i => Cell.num (skipnaSum (rowCells (df.selectCols
      (packet_numeric_names df)) i)))

/-- Line 73: `df[numeric_cols].mean(axis=1)`, the row-wise skipna means over
the captured labels, evaluated on the table as it stands after the Total
assignment. -/
def packet_averages (df1 : Table) (names : List String) : List Cell :=
  (List.range df1.nrows).map
    (fun i => skipnaMeanCell (rowCells (df1.selectCols names) i))

/-- src/app.py lines 63-78, `process_packet_dataframe`: `None` when a
required column is missing (lines 65-68) or no numeric column exists
(lines 74-76); otherwise assigns Total, then Average, and returns the
(mutated) table. -/
def process_packet_dataframe (df : Table) : Option Table :=
  if ∀ c ∈ packet_columns, c ∈ df.colNames then
    if 0 < (packet_numeric_names df).length then
      some ((df.setCol ("Total") (packet_totals df)).setCol ("Average")
        (packet_averages (df.setCol ("Total") (packet_totals df))
          (packet_numeric_names df)))
    else none
  else none

/-- src/app.py line 123: the numeric columns with Total and Average dropped
by label (`errors='ignore'` makes the drop a no-op when absent). -/
def packet_numeric_df (df : Table) : List Column :=
  (df.numericCols).filter
    (fun c => ! (c.name == ("Total") || c.name == ("Average")))

structure PacketStats where
  total_packets : ℚ
  monthly_averages : List (String × Cell)
  account_totals : List ℚ
  active_months : List ℕ
deriving DecidableEq, Repr

/-- src/app.py lines 121-129, `calculate_packet_statistics`: grand total,
per-month column means, row-wise totals and row-wise non-null counts, all
over the numeric columns minus Total and Average. -/
def calculate_packet_statistics (df : Table) : PacketStats :=
  { total_packets :=
      ((packet_numeric_df df).map (fun c => skipnaSum c.cells)).sum
    monthly_averages :=
      (packet_numeric_df df).map (fun c => (c.name, skipnaMeanCell c.cells))
    account_totals :=
      (List.range df.nrows).map
        (fun i => skipnaSum (rowCells (packet_numeric_df df) i))
    active_months :=
      (List.range df.nrows).map
        (fun i => skipnaCount (rowCells (packet_numeric_df df) i)) }

/-- The state of the caller-supplied dataframe object after the call:
pandas column assignment mutates the argument in place and the function
returns that same object, so on success the post-state is the returned
table; the early `return None` paths happen before any assignment, leaving
the argument untouched. -/
def packetPostState (df : Table) : Table :=
  (process_packet_dataframe df).getD df

/-- Scenario A of the spec: columns Account, A/C Holder Name, State, Jan,
Feb with the single row (101, Asha, MH, 10, null); the Account entry is a
number, so the Account column has int64 dtype. -/
def exC2 : Table :=
  ⟨1, [⟨"Account", [Cell.num 101]⟩,
       ⟨"A/C Holder Name", [Cell.str ("Asha")]⟩,
       ⟨"State", [Cell.str ("MH")]⟩,
       ⟨"Jan", [Cell.num 10]⟩,
       ⟨"Feb", [Cell.null]⟩]⟩

/-- C2: on the Scenario A table the file is classified as packet, but the
numeric Account column is selected as a data column alongside Jan and Feb,
so the code derives Total = 101 + 10 = 111, Average = 111/2 and an active
month count of 2 — not the total of 10, average of 10 and count of 1 the
claim states. -/
theorem scenario_a_account_in_months :
    detect_file_type exC2 = some ("packet") ∧
    (process_packet_dataframe exC2).map
        (fun t => (t.cell ("Total") 0, t.cell ("Average") 0))
      = some (Cell.num 111, Cell.num (111 / 2)) ∧
    (process_packet_dataframe exC2).map
        (fun t => (calculate_packet_statistics t).active_months)
      = some [2] ∧
    (process_packet_dataframe exC2).map (fun t => t.cell ("Total") 0)
      ≠ some (Cell.num 10) := by decide

/-- A fresh one-month packet table with a non-numeric Account column. -/
def exC5 : Table :=
  ⟨1, [⟨"Account", [Cell.str ("101")]⟩,
       ⟨"A/C Holder Name", [Cell.str ("Asha")]⟩,
       ⟨"State", [Cell.str ("MH")]⟩,
       ⟨"Jan", [Cell.num 10]⟩]⟩

/-- C5: normalizing the fresh one-month table derives Total = 10 and
Average = 10, but normalizing the result again treats the pre-existing
Total and Average columns as numeric data: the new Total becomes
10 + 10 + 10 = 30, and the new Average is the mean of Jan = 10, the freshly
overwritten Total = 30 and the old Average = 10, i.e. 50/3.  Normalization
is not idempotent on the derived columns. -/
theorem renormalize_changes_totals :
    (process_packet_dataframe exC5).map
        (fun t => (t.cell ("Total") 0, t.cell ("Average") 0))
      = some (Cell.num 10, Cell.num 10) ∧
    ((process_packet_dataframe exC5).bind process_packet_dataframe).map
        (fun t => (t.cell ("Total") 0, t.cell ("Average") 0))
      = some (Cell.num 30, Cell.num (50 / 3)) := by decide

/-- A fresh two-row packet table for the mutation counterexample. -/
def exC9 : Table :=
  ⟨2, [⟨"Account", [Cell.str ("A1"), Cell.str ("A2")]⟩,
       ⟨"A/C Holder Name", [Cell.str ("H1"), Cell.str ("H2")]⟩,
       ⟨"State", [Cell.str ("MH"), Cell.str ("KA")]⟩,
       ⟨"Jan", [Cell.num 5, Cell.num 7]⟩]⟩

/-- C9, counterexample: after a successful call the caller-visible table
differs from the input — the call added Total and Average columns to the
argument in place (and returned that same object). -/
theorem process_packet_mutates_counterexample :
    (process_packet_dataframe exC9).isSome ∧ packetPostState exC9 ≠ exC9 := by
  decide

theorem find?_append_of_none {α : Type} (p : α → Bool) (l1 l2 : List α)
    (h : l1.find? p = none) : (l1 ++ l2).find? p = l2.find? p := by
  induction l1 with
  | nil => simp
  | cons a t ih =>
    cases hpa : p a with
    | true =>
      rw [List.find?_cons_of_pos _ hpa] at h
      exact absurd h (by simp)
    | false =>
      rw [List.find?_cons_of_neg _ (by simp [hpa])] at h
      rw [List.cons_append, List.find?_cons_of_neg _ (by simp [hpa])]
      exact ih h

theorem find?_append_of_some {α : Type} (p : α → Bool) (l1 l2 : List α)
    (x : α) (h : l1.find? p = some x) : (l1 ++ l2).find? p = some x := by
  induction l1 with
  | nil => simp at h
  | cons a t ih =>
    cases hpa : p a with
    | true =>
      rw [List.find?_cons_of_pos _ hpa] at h
      rw [List.cons_append, List.find?_cons_of_pos _ hpa]
      exact h
    | false =>
      rw [List.find?_cons_of_neg _ (by simp [hpa])] at h
      rw [List.cons_append, List.find?_cons_of_neg _ (by simp [hpa])]
      exact ih h

/-- A label absent from the table finds no column. -/
theorem getCol_eq_none (t : Table) (n : String) (h : n ∉ t.colNames) :
    t.getCol n = none := by
  rw [Table.getCol]
  apply List.find?_eq_none.mpr
  intro c hc
  simp only [beq_iff_eq]
  intro heq
  exact h (List.mem_map.mpr ⟨c, hc, heq⟩)

theorem find?_name_nodup (cols : List Column) (c : Column)
    (hnd : (cols.map Column.name).Nodup) (hc : c ∈ cols) :
    cols.find? (fun d => d.name == c.name) = some c := by
  induction cols with
  | nil => simp at hc
  | cons a t ih =>
    rcases List.mem_cons.mp hc with rfl | hmem
    · apply List.find?_cons_of_pos
      simp
    · simp only [List.map_cons, List.nodup_cons] at hnd
      have hne : a.name ≠ c.name := by
        intro heq
        exact hnd.1 (heq ▸ List.mem_map.mpr ⟨c, hmem, rfl⟩)
      rw [List.find?_cons_of_neg _ (by simp [hne])]
      exact ih hnd.2 hmem

/-- With distinct labels, looking a column of the table up by its own label
returns that column. -/
theorem getCol_of_nodup (t : Table) (c : Column)
    (hnd : t.colNames.Nodup) (hc : c ∈ t.cols) :
    t.getCol c.name = some c :=
  find?_name_nodup t.cols c hnd hc

theorem filterMap_id_of_mem {α : Type} (l : List α) (f : α → Option α)
    (h : ∀ x ∈ l, f x = some x) : l.filterMap f = l := by
  induction l with
  | nil => rfl
  | cons a t ih =>
    simp only [List.filterMap_cons, h a (List.mem_cons_self a t)]
    rw [ih (fun x hx => h x (List.mem_cons_of_mem a hx))]

theorem filterMap_congr_mem {α β : Type} (l : List α) (f g : α → Option β)
    (h : ∀ x ∈ l, f x = g x) : l.filterMap f = l.filterMap g := by
  induction l with
  | nil => rfl
  | cons a t ih =>
    rw [List.filterMap_cons, List.filterMap_cons,
      h a (List.mem_cons_self a t),
      ih (fun x hx => h x (List.mem_cons_of_mem a hx))]

/-- With distinct labels, selecting the captured numeric labels returns
exactly the numeric columns. -/
theorem selectCols_numeric (df : Table) (hnd : df.colNames.Nodup) :
    df.selectCols (packet_numeric_names df) = df.numericCols := by
  rw [Table.selectCols, packet_numeric_names, List.filterMap_map]
  apply filterMap_id_of_mem
  intro c hc
  exact getCol_of_nodup df c hnd (List.mem_of_mem_filter hc)

/-- Appending fresh columns does not change lookups of existing labels. -/
theorem getCol_append (df : Table) (extra : List Column) (n : String)
    (h : n ∈ df.colNames) :
    (Table.mk df.nrows (df.cols ++ extra)).getCol n = df.getCol n := by
  rcases List.mem_map.mp h with ⟨c, hc, hcn⟩
  have hsome : (df.cols.find? (fun d => d.name == n)).isSome := by
    apply List.find?_isSome.mpr
    exact ⟨c, hc, by simp [hcn]⟩
  rcases Option.isSome_iff_exists.mp hsome with ⟨x, hx⟩
  show (df.cols ++ extra).find? (fun d => d.name == n) = _
  rw [find?_append_of_some _ _ _ _ hx]
  exact hx.symm

theorem selectCols_append (df : Table) (extra : List Column)
    (names : List String) (h : ∀ n ∈ names, n ∈ df.colNames) :
    (Table.mk df.nrows (df.cols ++ extra)).selectCols names
      = df.selectCols names :=
  filterMap_congr_mem names _ _ (fun n hn => getCol_append df extra n (h n hn))

/-- Every captured numeric label is a label of the table. -/
theorem packet_numeric_names_subset (df : Table) :
    ∀ n ∈ packet_numeric_names df, n ∈ df.colNames := by
  intro n hn
  rcases List.mem_map.mp hn with ⟨c, hc, rfl⟩
  exact List.mem_map.mpr ⟨c, List.mem_of_mem_filter hc, rfl⟩

/-- Assignment under a fresh label appends the column. -/
theorem setCol_not_mem (t : Table) (n : String) (vals : List Cell)
    (h : n ∉ t.colNames) :
    t.setCol n vals = Table.mk t.nrows (t.cols ++ [⟨n, vals⟩]) := by
  rw [Table.setCol, if_neg h]

theorem colNames_append (t : Table) (extra : List Column) :
    (Table.mk t.nrows (t.cols ++ extra)).colNames
      = t.colNames ++ extra.map Column.name := by
  simp [Table.colNames]

theorem getD_map_range {α : Type} (f : ℕ → α) (n i : ℕ) (h : i < n) (d : α) :
    ((List.range n).map f).getD i d = f i := by
  rw [List.getD_eq_getElem?_getD]
  simp [List.getElem?_map, List.getElem?_range, h]

/-- The assigned Total column has numeric dtype: every cell is a number. -/
theorem isNumeric_totals (df : Table) :
    Column.isNumeric ⟨("Total"), packet_totals df⟩ = true := by
  simp only [Column.isNumeric, packet_totals, List.all_eq_true]
  intro x hx
  rcases List.mem_map.mp hx with ⟨i, _, rfl⟩
  rfl

theorem isNumericCell_meanCell (cells : List Cell) :
    isNumericCell (skipnaMeanCell cells) = true := by
  rw [skipnaMeanCell]
  split <;> rfl

/-- The assigned Average column has numeric dtype: every cell is a number
or null. -/
theorem isNumeric_averages (df1 : Table) (names : List String) :
    Column.isNumeric ⟨("Average"), packet_averages df1 names⟩ = true := by
  simp only [Column.isNumeric, packet_averages, List.all_eq_true]
  intro x hx
  rcases List.mem_map.mp hx with ⟨i, _, rfl⟩
  exact isNumericCell_meanCell _

/-- On a table without pre-existing Total or Average columns, successful
packet normalization appends the Total column and then the Average column,
the Average means being taken over the table that already carries Total. -/
theorem process_packet_eq (df : Table)
    (hreq : ∀ c ∈ packet_columns, c ∈ df.colNames)
    (htot : ("Total") ∉ df.colNames)
    (havg : ("Average") ∉ df.colNames)
    (hnum : 0 < (packet_numeric_names df).length) :
    process_packet_dataframe df = some (Table.mk df.nrows
      (df.cols ++ [⟨("Total"), packet_totals df⟩]
        ++ [⟨("Average"),
          packet_averages
            (Table.mk df.nrows (df.cols ++ [⟨("Total"), packet_totals df⟩]))
            (packet_numeric_names df)⟩])) := by
  have h1 : df.setCol ("Total") (packet_totals df)
      = Table.mk df.nrows (df.cols ++ [⟨("Total"), packet_totals df⟩]) :=
    setCol_not_mem df _ _ htot
  have h2 : ("Average") ∉ (Table.mk df.nrows
      (df.cols ++ [⟨("Total"), packet_totals df⟩])).colNames := by
    rw [colNames_append]
    intro hmem
    rcases List.mem_append.mp hmem with hmem | hmem
    · exact havg hmem
    · simp at hmem
  rw [process_packet_dataframe, if_pos hreq, if_pos hnum, h1,
    setCol_not_mem _ _ _ h2]

/-- Dropping Total and Average from the numeric columns of a normalized
table leaves exactly the numeric columns of the original table. -/
theorem packet_numeric_df_processed (df : Table)
    (htot : ("Total") ∉ df.colNames) (havg : ("Average") ∉ df.colNames)
    (tcol acol : Column)
    (htn : tcol.name = ("Total")) (han : acol.name = ("Average"))
    (htnum : tcol.isNumeric = true) (hanum : acol.isNumeric = true) :
    packet_numeric_df (Table.mk df.nrows (df.cols ++ [tcol] ++ [acol]))
      = df.numericCols := by
  rw [packet_numeric_df]
  show (((df.cols ++ [tcol] ++ [acol]).filter Column.isNumeric).filter _) = _
  simp only [List.filter_append]
  have ht1 : [tcol].filter Column.isNumeric = [tcol] := by simp [htnum]
  have ha1 : [acol].filter Column.isNumeric = [acol] := by simp [hanum]
  rw [ht1, ha1]
  have ht2 : ([tcol].filter
      (fun c => ! (c.name == ("Total") || c.name == ("Average")))) = [] := by
    simp [htn]
  have ha2 : ([acol].filter
      (fun c => ! (c.name == ("Total") || c.name == ("Average")))) = [] := by
    simp [han]
  have hkeep : ((df.cols.filter Column.isNumeric).filter
      (fun c => ! (c.name == ("Total") || c.name == ("Average"))))
      = df.cols.filter Column.isNumeric := by
    apply List.filter_eq_self.mpr
    intro c hc
    have hcn : c.name ∈ df.colNames :=
      List.mem_map.mpr ⟨c, List.mem_of_mem_filter hc, rfl⟩
    have hne1 : c.name ≠ ("Total") := fun hh => htot (hh ▸ hcn)
    have hne2 : c.name ≠ ("Average") := fun hh => havg (hh ▸ hcn)
    simp [hne1, hne2]
  rw [ht2, ha2, hkeep]
  simp [Table.numericCols]

/-- The Total column of a normalized table, looked up by label. -/
theorem getCol_processed_total (df : Table) (tcells acells : List Cell)
    (htot : ("Total") ∉ df.colNames) :
    (Table.mk df.nrows (df.cols ++ [⟨("Total"), tcells⟩]
        ++ [⟨("Average"), acells⟩])).getCol ("Total")
      = some ⟨("Total"), tcells⟩ := by
  have hnone : df.cols.find? (fun d => d.name == ("Total")) = none :=
    getCol_eq_none df ("Total") htot
  show ((df.cols ++ [Column.mk ("Total") tcells]
      ++ [Column.mk ("Average") acells]).find?
      (fun d => d.name == ("Total"))) = _
  rw [List.append_assoc, find?_append_of_none _ _ _ hnone]
  rfl

/-- The Average column of a normalized table, looked up by label. -/
theorem getCol_processed_average (df : Table) (tcells acells : List Cell)
    (havg : ("Average") ∉ df.colNames) :
    (Table.mk df.nrows (df.cols ++ [⟨("Total"), tcells⟩]
        ++ [⟨("Average"), acells⟩])).getCol ("Average")
      = some ⟨("Average"), acells⟩ := by
  have hnone : df.cols.find? (fun d => d.name == ("Average")) = none :=
    getCol_eq_none df ("Average") havg
  show ((df.cols ++ [Column.mk ("Total") tcells]
      ++ [Column.mk ("Average") acells]).find?
      (fun d => d.name == ("Average"))) = _
  rw [List.append_assoc, find?_append_of_none _ _ _ hnone]
  rfl

/-- C1: on every packet table with distinct column labels, no pre-existing
Total or Average column, and at least one numeric column, normalization
succeeds and, for every row: the derived Total cell is the skipna sum of
the numeric data cells of that row; the active month count reported by the
statistics is the number of non-null data cells of that row; and the
derived Average cell is null when that count is zero and otherwise equals
the Total divided by the count — missing entries are excluded from both
the sum and the denominator, never treated as zero. -/
theorem packet_total_average_consistent (df : Table) (i : ℕ)
    (hreq : ∀ c ∈ packet_columns, c ∈ df.colNames)
    (hnd : df.colNames.Nodup)
    (htot : ("Total") ∉ df.colNames)
    (havg : ("Average") ∉ df.colNames)
    (hnum : 0 < (packet_numeric_names df).length)
    (hi : i < df.nrows) :
    ∃ df2, process_packet_dataframe df = some df2 ∧
      df2.cell ("Total") i
        = Cell.num (skipnaSum (rowCells df.numericCols i)) ∧
      (calculate_packet_statistics df2).active_months.getD i 0
        = skipnaCount (rowCells df.numericCols i) ∧
      (skipnaCount (rowCells df.numericCols i) = 0 →
        df2.cell ("Average") i = Cell.null) ∧
      (0 < skipnaCount (rowCells df.numericCols i) →
        df2.cell ("Average") i
          = Cell.num (skipnaSum (rowCells df.numericCols i)
              / (skipnaCount (rowCells df.numericCols i) : ℚ))) := by
  refine ⟨_, process_packet_eq df hreq htot havg hnum, ?_, ?_, ?_, ?_⟩
  · rw [Table.cell, getCol_processed_total df _ _ htot]
    simp only [Option.map_some', Option.getD_some]
    rw [packet_totals, getD_map_range _ _ _ hi, selectCols_numeric df hnd]
  · have hpnd := packet_numeric_df_processed df htot havg
      ⟨("Total"), packet_totals df⟩
      ⟨("Average"), packet_averages
        (Table.mk df.nrows (df.cols ++ [⟨("Total"), packet_totals df⟩]))
        (packet_numeric_names df)⟩
      rfl rfl (isNumeric_totals df) (isNumeric_averages _ _)
    simp only [calculate_packet_statistics]
    rw [hpnd]
    exact getD_map_range _ _ _ hi _
  · intro h0
    rw [Table.cell, getCol_processed_average df _ _ havg]
    simp only [Option.map_some', Option.getD_some]
    rw [packet_averages, getD_map_range _ _ _ hi,
      selectCols_append df _ _ (packet_numeric_names_subset df),
      selectCols_numeric df hnd, skipnaMeanCell, if_pos h0]
  · intro hpos
    rw [Table.cell, getCol_processed_average df _ _ havg]
    simp only [Option.map_some', Option.getD_some]
    rw [packet_averages, getD_map_range _ _ _ hi,
      selectCols_append df _ _ (packet_numeric_names_subset df),
      selectCols_numeric df hnd, skipnaMeanCell, if_neg (by omega)]

/-- A fresh two-row, two-month packet table with a missing February entry
in the first row. -/
def exC1 : Table :=
  ⟨2, [⟨"Account", [Cell.str ("A1"), Cell.str ("A2")]⟩,
       ⟨"A/C Holder Name", [Cell.str ("H1"), Cell.str ("H2")]⟩,
       ⟨"State", [Cell.str ("MH"), Cell.str ("KA")]⟩,
       ⟨"Jan", [Cell.num 10, Cell.num 4]⟩,
       ⟨"Feb", [Cell.null, Cell.num 6]⟩]⟩

/-- C1, witness: the consistency theorem at a concrete table, for the row
whose February entry is missing. -/
theorem packet_total_average_consistent_witness :
    ∃ df2, process_packet_dataframe exC1 = some df2 ∧
      df2.cell ("Total") 0
        = Cell.num (skipnaSum (rowCells exC1.numericCols 0)) ∧
      (calculate_packet_statistics df2).active_months.getD 0 0
        = skipnaCount (rowCells exC1.numericCols 0) ∧
      (skipnaCount (rowCells exC1.numericCols 0) = 0 →
        df2.cell ("Average") 0 = Cell.null) ∧
      (0 < skipnaCount (rowCells exC1.numericCols 0) →
        df2.cell ("Average") 0
          = Cell.num (skipnaSum (rowCells exC1.numericCols 0)
              / (skipnaCount (rowCells exC1.numericCols 0) : ℚ))) :=
  packet_total_average_consistent exC1 0 (by decide) (by decide)
    (by decide) (by decide) (by decide) (by decide)

/-- C9, amended: a successful packet normalization call mutates the
caller-supplied table — afterwards the caller-visible object carries the
appended Total and Average columns, so it is not the unchanged input; the
returned table is that same mutated object, not an independent copy. -/
theorem process_packet_mutates_input (df : Table)
    (hreq : ∀ c ∈ packet_columns, c ∈ df.colNames)
    (htot : ("Total") ∉ df.colNames)
    (havg : ("Average") ∉ df.colNames)
    (hnum : 0 < (packet_numeric_names df).length) :
    (packetPostState df).colNames
      = df.colNames ++ [("Total"), ("Average")] ∧
    packetPostState df ≠ df := by
  have hproc := process_packet_eq df hreq htot havg hnum
  have hnames : (packetPostState df).colNames
      = df.colNames ++ [("Total"), ("Average")] := by
    rw [packetPostState, hproc, Option.getD_some]
    simp [Table.colNames]
  refine ⟨hnames, ?_⟩
  intro heq
  rw [heq] at hnames
  have hlen := congrArg List.length hnames
  simp at hlen

/-- C9, witness: the mutation theorem at the concrete two-row packet table. -/
theorem process_packet_mutates_input_witness :
    (packetPostState exC9).colNames
      = exC9.colNames ++ [("Total"), ("Average")] ∧
    packetPostState exC9 ≠ exC9 :=
  process_packet_mutates_input exC9 (by decide) (by decide) (by decide)
    (by decide)
